import Mathlib

/-!
Verification development for the `presence-switch` IPC relay.

The definitions below are a shallow embedding of the relay's Rust source:

* `src/discord/ipc/mod.rs` — the frame type `Data`, `OpCode`, the frame
  encoder `Data.to_buf`, `OpCode.from_u32`, and the name allocator
  `next_name`;
* `src/discord/ipc/error.rs`, `src/switch/ipc/error.rs` — the error
  enumerations `IpcError` and `SwitchError`;
* `src/switch/ipc/windows.rs` and `src/discord/ipc/windows.rs` — the
  frame reader (`readFrame` models the header/payload read sequence of the
  reader loops, which are identical in both files);
* `src/switch/ipc/mod.rs` — the per-session dispatcher `Client::handle`
  with its `handshake` / `ping` / `close` / `relay` branches, modelled as a
  state-passing step function over `SessionState`;
* `src/discord.rs` — the cached application lookup `application_rpc`,
  modelled with explicit cache state and an explicit fetch outcome.

Bytes are modelled as natural numbers below 256 and byte strings as
`List Nat`; machine-integer casts (`as u32`) appear as explicit
`% 4294967296`.  Channel sends (the outbound broadcast bus and the
`switch_tx` funnel) are modelled by accumulating the sent frames in
lists, in send order.
-/

namespace PresenceSwitch

/-- Opcode enumeration from `src/discord/ipc/mod.rs` (`OpCode`), with the
source's numeric identities given by `OpCode.toU32`. -/
inductive OpCode where
  | handshake
  | frame
  | close
  | ping
  | pong
deriving DecidableEq, Repr

/-- Numeric value of an opcode: the Rust `opcode as u32` cast (the enum
discriminants `Handshake=0, Frame=1, Close=2, Ping=3, Pong=4`). -/
def OpCode.toU32 : OpCode → Nat
  | .handshake => 0
  | .frame => 1
  | .close => 2
  | .ping => 3
  | .pong => 4

/-- Error enumeration from `src/discord/ipc/error.rs` (`IpcError`). -/
inductive IpcError where
  | invalidOpCode
  | noNameAvailable
deriving DecidableEq, Repr

/-- Decoding a `u32` into an opcode, from `OpCode::from_u32` in
`src/discord/ipc/mod.rs`. -/
def OpCode.from_u32 (n : Nat) : Except IpcError OpCode :=
  match n with
  | 0 => .ok .handshake
  | 1 => .ok .frame
  | 2 => .ok .close
  | 3 => .ok .ping
  | 4 => .ok .pong
  | _ => .error .invalidOpCode

/-- A frame, from `struct Data` in `src/discord/ipc/mod.rs`: an opcode and
a payload.  The Rust payload is a `String`; here it is its byte sequence,
with UTF-8 validity tracked separately by `utf8Valid`. -/
structure Data where
  opcode : OpCode
  msg : List Nat
deriving DecidableEq, Repr

/-- Payload byte length, from `Data::len` (Rust `String::len` counts
bytes). -/
def Data.len (d : Data) : Nat := d.msg.length

/-- Little-endian 4-byte encoding of a `u32`, from `BytesMut::put_u32_le`. -/
def putU32le (n : Nat) : List Nat :=
  [n % 256, n / 256 % 256, n / 65536 % 256, n / 16777216 % 256]

/-- Frame encoder, from `Data::to_buf` in `src/discord/ipc/mod.rs`: opcode
as `u32` little-endian, then the payload length cast to `u32` (hence reduced
modulo `2^32`) little-endian, then every payload byte. -/
def Data.to_buf (d : Data) : List Nat :=
  putU32le d.opcode.toU32 ++ putU32le (d.len % 4294967296) ++ d.msg

/-- Reads a little-endian `u32` from the head of a byte stream, from
`read_u32_le`; fails (the reader's io error) when fewer than 4 bytes
remain. -/
def readU32 : List Nat → Option (Nat × List Nat)
  | b0 :: b1 :: b2 :: b3 :: rest =>
      some (b0 + 256 * b1 + 65536 * b2 + 16777216 * b3, rest)
  | _ => none

/-- A UTF-8 continuation byte (`0x80..0xBF`). -/
def contByte (b : Nat) : Bool := 128 ≤ b && b ≤ 191

/-- UTF-8 validity of a byte sequence, the check performed by Rust's
`String::from_utf8` (RFC 3629 table: ASCII, and 2/3/4-byte sequences with
the surrogate and overlong ranges excluded). -/
def utf8Valid : List Nat → Bool
  | [] => true
  | b :: rest =>
    if b ≤ 127 then utf8Valid rest
    else if 194 ≤ b && b ≤ 223 then
      match rest with
      | c1 :: r => contByte c1 && utf8Valid r
      | [] => false
    else if b = 224 then
      match rest with
      | c1 :: c2 :: r => (160 ≤ c1 && c1 ≤ 191) && contByte c2 && utf8Valid r
      | _ => false
    else if 225 ≤ b && b ≤ 236 then
      match rest with
      | c1 :: c2 :: r => contByte c1 && contByte c2 && utf8Valid r
      | _ => false
    else if b = 237 then
      match rest with
      | c1 :: c2 :: r => (128 ≤ c1 && c1 ≤ 159) && contByte c2 && utf8Valid r
      | _ => false
    else if 238 ≤ b && b ≤ 239 then
      match rest with
      | c1 :: c2 :: r => contByte c1 && contByte c2 && utf8Valid r
      | _ => false
    else if b = 240 then
      match rest with
      | c1 :: c2 :: c3 :: r =>
          (144 ≤ c1 && c1 ≤ 191) && contByte c2 && contByte c3 && utf8Valid r
      | _ => false
    else if 241 ≤ b && b ≤ 243 then
      match rest with
      | c1 :: c2 :: c3 :: r => contByte c1 && contByte c2 && contByte c3 && utf8Valid r
      | _ => false
    else if b = 244 then
      match rest with
      | c1 :: c2 :: c3 :: r =>
          (128 ≤ c1 && c1 ≤ 143) && contByte c2 && contByte c3 && utf8Valid r
      | _ => false
    else false

/-- Outcome of one iteration of a frame-reader loop. -/
inductive ReadResult where
  | frame : Data → List Nat → ReadResult
  | disconnected : ReadResult
  | headerEof : ReadResult
  | invalidOpCode : ReadResult
  | utf8Error : ReadResult
deriving DecidableEq, Repr

/-- One iteration of the frame-reader loop in `src/switch/ipc/windows.rs`
(`handle`) and `src/discord/ipc/windows.rs` (`connect`), on a stream whose
buffered bytes are `input`: read opcode and length headers with
`read_u32_le`, then issue a single `read_buf` into
`BytesMut::with_capacity(length)`.  That one read returns at most the
buffer's spare capacity — `length` bytes when `length > 0`, and at least 64
bytes when `length = 0` (`BytesMut::chunk_mut` reserves when the buffer is
full); here it returns `min cap` (available).  A zero return takes the
`n == 0` branch, which `break`s the loop (treated as a disconnect). -/
def readFrame (input : List Nat) : ReadResult :=
  match readU32 input with
  | none => .headerEof
  | some (opRaw, r1) =>
    match OpCode.from_u32 opRaw with
    | .error _ => .invalidOpCode
    | .ok op =>
      match readU32 r1 with
      | none => .headerEof
      | some (length, r2) =>
        let cap := if length = 0 then 64 else length
        let n := min cap r2.length
        if n = 0 then .disconnected
        else if utf8Valid (r2.take n) then .frame ⟨op, r2.take n⟩ (r2.drop n)
        else .utf8Error

/-- Modelled from the spec: the read side of the frame codec as §4.B words
it — "read exactly 8 bytes of header, decode opcode (validate against the
enum), then read exactly `length` bytes (may be zero)".  Stated for
comparison against `readFrame`, the reader the source actually implements. -/
def specReadFrame (input : List Nat) : ReadResult :=
  match readU32 input with
  | none => .headerEof
  | some (opRaw, r1) =>
    match OpCode.from_u32 opRaw with
    | .error _ => .invalidOpCode
    | .ok op =>
      match readU32 r1 with
      | none => .headerEof
      | some (length, r2) =>
        if length ≤ r2.length then
          if utf8Valid (r2.take length) then .frame ⟨op, r2.take length⟩ (r2.drop length)
          else .utf8Error
        else .headerEof

/-- Recursion core of `decRep`: fuel-bounded extraction of decimal digits,
most significant first.  The fuel always exceeds the digit count, so the
exhaustion branch is never taken on the intended calls. -/
def decRepAux : Nat → Nat → List Nat
  | 0, _ => []
  | fuel + 1, n => if n < 10 then [48 + n] else decRepAux fuel (n / 10) ++ [48 + n % 10]

/-- Decimal digit bytes of a natural number, the Rust `format!` `Display`
of an unsigned integer (used by `impl fmt::Display for OpCode`, which
writes `*self as u32`). -/
def decRep (n : Nat) : List Nat := decRepAux (n + 1) n

mutual

/-- Modelled from the spec: the JSON value retained from the client's
handshake.  The repository calls `data.to_json_value::<discord::api::Handshake>()`
and later `serde_json::to_string(handshake)`, but the `discord::api` module
(the `Handshake` struct) is not among the provided sources; §4.E of the spec
says the parse extracts `client_id` and retains the arbitrary JSON body, so
the value is modelled as a JSON tree (the subset needed here: strings of
unescaped bytes, natural numbers, and objects). -/
inductive Json where
  | str : List Nat → Json
  | num : Nat → Json
  | obj : JsonFields → Json

/-- Field list of a JSON object: key bytes paired with values, in source
order. -/
inductive JsonFields where
  | nil : JsonFields
  | cons : List Nat → Json → JsonFields → JsonFields

end

/-- Drops leading JSON whitespace (space, tab, newline, carriage return),
as `serde_json` does between tokens. -/
def skipWs : List Nat → List Nat
  | [] => []
  | b :: r => if b = 32 || b = 9 || b = 10 || b = 13 then skipWs r else b :: r

/-- Parses the remainder of a JSON string after its opening quote, up to
the closing quote.  Escape sequences are outside the modelled subset and
are rejected. -/
def parseStringBody : List Nat → Option (List Nat × List Nat)
  | [] => none
  | b :: r =>
    if b = 34 then some ([], r)
    else if b = 92 then none
    else (parseStringBody r).map (fun p => (b :: p.1, p.2))

/-- Splits a leading run of ASCII digits from a byte stream. -/
def digitRun : List Nat → List Nat × List Nat
  | [] => ([], [])
  | b :: r =>
    if 48 ≤ b && b ≤ 57 then
      let p := digitRun r
      (b :: p.1, p.2)
    else ([], b :: r)

/-- Numeric value of a run of ASCII digit bytes. -/
def digitsToNat (ds : List Nat) : Nat :=
  ds.foldl (fun acc d => acc * 10 + (d - 48)) 0

mutual

/-- Modelled from the spec: recursive-descent JSON value parse
(`serde_json::from_str` on the modelled subset), with fuel bounding the
nesting depth. -/
def parseValue : Nat → List Nat → Option (Json × List Nat)
  | 0, _ => none
  | fuel + 1, input =>
    match skipWs input with
    | [] => none
    | b :: r =>
      if b = 34 then (parseStringBody r).map (fun p => (Json.str p.1, p.2))
      else if b = 123 then parseFields fuel r
      else if 48 ≤ b && b ≤ 57 then
        let p := digitRun (b :: r)
        some (Json.num (digitsToNat p.1), p.2)
      else none

/-- Modelled from the spec: parse of an object body after its opening
brace, producing the field list. -/
def parseFields : Nat → List Nat → Option (Json × List Nat)
  | 0, _ => none
  | fuel + 1, input =>
    match skipWs input with
    | [] => none
    | b :: r =>
      if b = 125 then some (Json.obj .nil, r)
      else if b = 34 then
        match parseStringBody r with
        | none => none
        | some (key, r1) =>
          match skipWs r1 with
          | 58 :: r2 =>
            match parseValue fuel r2 with
            | none => none
            | some (v, r3) =>
              match skipWs r3 with
              | 44 :: r4 =>
                match parseFields fuel r4 with
                | some (Json.obj fs, r5) => some (Json.obj (.cons key v fs), r5)
                | _ => none
              | 125 :: r4 => some (Json.obj (.cons key v .nil), r4)
              | _ => none
          | _ => none
      else none

end

/-- Modelled from the spec: whole-payload JSON parse — a single value
followed only by whitespace, as `serde_json::from_str` requires. -/
def parseJson (input : List Nat) : Option Json :=
  match parseValue (input.length + 1) input with
  | some (j, rest) => if skipWs rest = [] then some j else none
  | none => none

mutual

/-- Modelled from the spec: compact JSON printing, the behaviour of
`serde_json::to_string` (no interstitial whitespace). -/
def printJson : Json → List Nat
  | .str s => 34 :: (s ++ [34])
  | .num n => decRep n
  | .obj fs => 123 :: (printFields fs ++ [125])

/-- Modelled from the spec: compact printing of an object's field list,
comma-separated. -/
def printFields : JsonFields → List Nat
  | .nil => []
  | .cons k v .nil => 34 :: (k ++ [34]) ++ (58 :: printJson v)
  | .cons k v (.cons k2 v2 fs) =>
      34 :: (k ++ [34]) ++ (58 :: printJson v)
        ++ (44 :: printFields (.cons k2 v2 fs))

end

/-- First value bound to a key in a JSON object's field list. -/
def fieldsLookup : JsonFields → List Nat → Option Json
  | .nil, _ => none
  | .cons k v fs, key => if k = key then some v else fieldsLookup fs key

/-- Byte spelling of the JSON key `client_id`. -/
def clientIdKey : List Nat := [99, 108, 105, 101, 110, 116, 95, 105, 100]

/-- Modelled from the spec: deserialization of the handshake payload into
the retained `discord::api::Handshake` value (§4.E: "Parse the payload as
JSON; extract the `client_id` field").  The payload must be a JSON object
carrying a string `client_id`; the whole parsed body is retained. -/
def parseHandshake (payload : List Nat) : Option Json :=
  match parseJson payload with
  | some (Json.obj fs) =>
    match fieldsLookup fs clientIdKey with
    | some (Json.str _) => some (Json.obj fs)
    | _ => none
  | _ => none

/-- Error enumeration from `src/switch/ipc/error.rs` (`SwitchError`),
extended with the `serde_json::Error` that `Client::handshake` can
propagate from `to_json_value`. -/
inductive SessionError where
  | parseError
  | noDiscords
deriving DecidableEq, Repr

/-- Opaque failure of the HTTPS application lookup (`reqwest::Error`). -/
inductive ReqError where
  | requestFailed
deriving DecidableEq, Repr

/-- Application metadata from `src/discord.rs` (`ApplicationRpcData`). -/
structure ApplicationRpcData where
  name : String
deriving DecidableEq, Repr

/-- Observable state of one client session, from `struct Client` in
`src/switch/ipc/mod.rs`.  The two channels are modelled by the lists of
frames sent on them, in send order: `busEvents` for the outbound broadcast
bus (`discord_channel.0.send`) and `switchEvents` for the funnel to the
inbound-stream writer (`switch_tx.send`).  `discord_ipc_clients` keeps the
number of connected host connectors. -/
structure SessionState where
  handshake : Option Json
  app_data : Option ApplicationRpcData
  discord_ipc_clients : Nat
  closed : Bool
  busEvents : List Data
  switchEvents : List Data

/-- State of a freshly accepted session, from `Client::new`. -/
def initState : SessionState :=
  { handshake := none
  , app_data := none
  , discord_ipc_clients := 0
  , closed := false
  , busEvents := []
  , switchEvents := [] }

/-- Pong payload from `Client::ping`: `format!` of a quote, the `Display`
of `OpCode::Pong` (its `u32` value in decimal), and a quote. -/
def pongMsg : List Nat := 34 :: (decRep OpCode.pong.toU32 ++ [34])

/-- Host-connector setup, from `Client::setup_discord_ipc_clients`:
`conn` lists the outcome of `discord::ipc::Client::connect` for each name
in `other_ipc_names()`, in order; failures are logged and skipped.  With
zero successes the session fails with `NoDiscords`; otherwise the parsed
handshake, re-serialized by `serde_json::to_string`, is sent once onto the
outbound bus (the `None` fallback only logs a warning). -/
def Client.setup_discord_ipc_clients (conn : List Bool) (st : SessionState) :
    Except SessionError SessionState :=
  let clients := conn.count true
  if clients = 0 then .error .noDiscords
  else
    match st.handshake with
    | some j =>
        .ok { st with
                discord_ipc_clients := clients
              , busEvents := st.busEvents ++ [⟨OpCode.handshake, printJson j⟩] }
    | none => .ok { st with discord_ipc_clients := clients }

/-- Handshake branch, from `Client::handshake`: parse the payload (a
`serde_json` failure propagates), retain it, record the best-effort
application lookup outcome `lk` (an `Err` is logged and recorded as
`None`), then run connector setup. -/
def Client.handshakeStep (conn : List Bool) (lk : Except ReqError ApplicationRpcData)
    (st : SessionState) (d : Data) : Except SessionError SessionState :=
  match parseHandshake d.msg with
  | none => .error .parseError
  | some j =>
      Client.setup_discord_ipc_clients conn
        { st with handshake := some j, app_data := lk.toOption }

/-- Ping branch, from `Client::ping`: send one Pong frame to the
inbound-stream writer. -/
def Client.pingStep (st : SessionState) : SessionState :=
  { st with switchEvents := st.switchEvents ++ [⟨OpCode.pong, pongMsg⟩] }

/-- Close branch, from `Client::close`: set the `closed` flag. -/
def Client.closeStep (st : SessionState) : SessionState :=
  { st with closed := true }

/-- Relay branch, from `Client::relay`: send the frame onto the outbound
bus (the session itself holds a receiver, so the broadcast send does not
fail). -/
def Client.relayStep (st : SessionState) (d : Data) : SessionState :=
  { st with busEvents := st.busEvents ++ [d] }

/-- Per-frame dispatcher, from `Client::handle`: Handshake, Ping and Close
have dedicated branches; every other opcode falls to `relay`. -/
def Client.handle (conn : List Bool) (lk : Except ReqError ApplicationRpcData)
    (st : SessionState) (d : Data) : Except SessionError SessionState :=
  match d.opcode with
  | .handshake => Client.handshakeStep conn lk st d
  | .ping => .ok (Client.pingStep st)
  | .close => .ok (Client.closeStep st)
  | _ => .ok (Client.relayStep st d)

/-- Reader loop of `handle` in `src/switch/ipc/windows.rs`, at frame
granularity: stop when `closed` is set, dispatch each decoded frame through
`Client::handle`, and stop at the first error (which the loop propagates,
ending the session with that error). -/
def runSession (conn : List Bool) (lk : Except ReqError ApplicationRpcData) :
    SessionState → List Data → SessionState × Option SessionError
  | st, [] => (st, none)
  | st, d :: ds =>
    if st.closed then (st, none)
    else
      match Client.handle conn lk st d with
      | .ok st1 => runSession conn lk st1 ds
      | .error e => (st, some e)

/-- Endpoint name with index `i`, from `format!` of `discord-ipc-` and the
index in `next_name` (`src/discord/ipc/mod.rs`). -/
def ipcName (i : Nat) : String := "discord-ipc-" ++ toString i

/-- Loop body of `next_name`, from `src/discord/ipc/mod.rs`: scan indices
`i, i+1, …, 9` and return the first name whose path does not exist
(`taken` is the point-in-time `path.exists()` probe); fail with
`NoNameAvailable` when the scan runs out. -/
def nextNameFrom (taken : Nat → Bool) (i : Nat) : Except IpcError String :=
  if i < 10 then
    if taken i then nextNameFrom taken (i + 1) else .ok (ipcName i)
  else .error .noNameAvailable
termination_by 10 - i
decreasing_by
  simp_wf
  omega

/-- Name allocation, from `next_name` in `src/discord/ipc/mod.rs`. -/
def next_name (taken : Nat → Bool) : Except IpcError String :=
  nextNameFrom taken 0

/-- Association lookup in the modelled application cache (`CACHE.get`). -/
def cacheGet (cache : List (String × ApplicationRpcData)) (clientId : String) :
    Option ApplicationRpcData :=
  match cache with
  | [] => none
  | (k, v) :: rest => if k = clientId then some v else cacheGet rest clientId

/-- Cached application lookup, from `application_rpc` in `src/discord.rs`.
The process-wide `CACHE` is passed and returned explicitly; `fetch` is the
outcome of the HTTPS `GET` plus JSON decode.  The returned `Bool` records
whether the HTTP request was issued.  On a cache hit the cached entry is
returned at once; on a miss a successful fetch is inserted (the key is
absent, so consing is `HashMap::insert`) and a failed fetch leaves the
cache unchanged and returns the error. -/
def application_rpc (cache : List (String × ApplicationRpcData))
    (fetch : Except ReqError ApplicationRpcData) (clientId : String) :
    Except ReqError ApplicationRpcData × List (String × ApplicationRpcData) × Bool :=
  match cacheGet cache clientId with
  | some d => (.ok d, cache, false)
  | none =>
    match fetch with
    | .ok d => (.ok d, (clientId, d) :: cache, true)
    | .error e => (.error e, cache, true)

/-! Helper lemmas shared by the claim theorems. -/

/-- Reading back a little-endian `u32` encoding recovers the value modulo
`2^32` and leaves the trailing bytes untouched. -/
theorem readU32_putU32le (n : Nat) (rest : List Nat) :
    readU32 (putU32le n ++ rest) = some (n % 4294967296, rest) := by
  simp only [putU32le, List.cons_append, List.nil_append, readU32,
    Option.some.injEq, Prod.mk.injEq]
  exact ⟨by omega, trivial⟩

/-- Decoding the numeric value of an opcode yields that opcode. -/
theorem from_u32_toU32 (c : OpCode) : OpCode.from_u32 c.toU32 = .ok c := by
  cases c <;> rfl

/-- Every opcode's numeric value fits in a `u32`. -/
theorem toU32_lt (c : OpCode) : c.toU32 < 4294967296 := by
  cases c <;> decide

/-- Claim C8: converting a `u32` to an opcode succeeds exactly on
`{0,1,2,3,4}`, mapping 0 to Handshake, 1 to Frame, 2 to Close, 3 to Ping
and 4 to Pong, and yields `InvalidOpCode` for every larger value. -/
theorem from_u32_spec :
    OpCode.from_u32 0 = .ok .handshake ∧
    OpCode.from_u32 1 = .ok .frame ∧
    OpCode.from_u32 2 = .ok .close ∧
    OpCode.from_u32 3 = .ok .ping ∧
    OpCode.from_u32 4 = .ok .pong ∧
    ∀ u : Nat, 4 < u → OpCode.from_u32 u = .error .invalidOpCode := by
  refine ⟨rfl, rfl, rfl, rfl, rfl, ?_⟩
  intro u h
  obtain ⟨n, rfl⟩ : ∃ n, u = n + 5 := ⟨u - 5, by omega⟩
  rfl

/-- Witness for C8 at `u = 9`. -/
theorem from_u32_spec_witness :
    4 < 9 ∧ OpCode.from_u32 9 = .error .invalidOpCode :=
  ⟨by decide, from_u32_spec.2.2.2.2.2 9 (by decide)⟩

/-- Claim C10: `to_buf` writes a length header equal to the payload's byte
length reduced modulo `2^32` (read back here exactly as the decoder reads
it) while appending every payload byte after the 8-byte header, so for a
payload of `2^32` bytes or more the header disagrees with the number of
payload bytes that follow. -/
theorem to_buf_length_header (d : Data) :
    readU32 ((Data.to_buf d).drop 4) = some (d.msg.length % 4294967296, d.msg) ∧
    (4294967296 ≤ d.msg.length → d.msg.length % 4294967296 ≠ d.msg.length) := by
  constructor
  · rw [Data.to_buf, List.append_assoc,
      show (4 : Nat) = (putU32le d.opcode.toU32).length from rfl, List.drop_left,
      readU32_putU32le]
    simp only [Option.some.injEq, Prod.mk.injEq, Data.len]
    exact ⟨by omega, trivial⟩
  · intro h
    have := Nat.mod_lt d.msg.length (show 0 < 4294967296 by decide)
    omega

/-- Witness for C10 at a `2^32`-byte payload. -/
theorem to_buf_length_header_witness :
    4294967296 ≤ (Data.mk OpCode.frame (List.replicate 4294967296 97)).msg.length ∧
    (Data.mk OpCode.frame (List.replicate 4294967296 97)).msg.length % 4294967296 ≠
      (Data.mk OpCode.frame (List.replicate 4294967296 97)).msg.length := by
  have h :
      4294967296 ≤ (Data.mk OpCode.frame (List.replicate 4294967296 97)).msg.length := by
    dsimp only
    rw [List.length_replicate]
  exact ⟨h, (to_buf_length_header (Data.mk OpCode.frame (List.replicate 4294967296 97))).2 h⟩

/-- Claim C4: a Ping frame, whatever its payload, makes the relay send
exactly one Pong frame to the client's writer, with payload exactly the
three bytes quote, digit four, quote, while the outbound bus (and all other
session state) is left untouched. -/
theorem ping_pong (conn : List Bool) (lk : Except ReqError ApplicationRpcData)
    (st : SessionState) (d : Data) (h : d.opcode = OpCode.ping) :
    Client.handle conn lk st d =
      .ok { st with switchEvents := st.switchEvents ++ [⟨OpCode.pong, pongMsg⟩] } ∧
    pongMsg = [34, 52, 34] := by
  obtain ⟨op, msg⟩ := d
  have h2 : op = OpCode.ping := h
  subst h2
  exact ⟨rfl, rfl⟩

/-- Witness for C4 at a Ping frame with payload `[34, 34]`. -/
theorem ping_pong_witness :
    (⟨OpCode.ping, [34, 34]⟩ : Data).opcode = OpCode.ping ∧
    (Client.handle [] (.error .requestFailed) initState ⟨OpCode.ping, [34, 34]⟩ =
      .ok { initState with
              switchEvents := initState.switchEvents ++ [⟨OpCode.pong, pongMsg⟩] } ∧
      pongMsg = [34, 52, 34]) :=
  ⟨rfl, ping_pong [] (.error .requestFailed) initState ⟨OpCode.ping, [34, 34]⟩ rfl⟩

/-- Counterexample to claim C3: a session that has received no handshake
and gets a Ping frame does not transition to Closing — it stays open and a
Pong is emitted before any handshake has been processed. -/
theorem awaitingHandshake_ping_cex :
    (Client.handle [] (.error .requestFailed) initState ⟨OpCode.ping, []⟩).toOption.map
        SessionState.closed = some false ∧
    (Client.handle [] (.error .requestFailed) initState ⟨OpCode.ping, []⟩).toOption.map
        SessionState.switchEvents = some [⟨OpCode.pong, pongMsg⟩] :=
  ⟨rfl, rfl⟩

/-- Claim C3 (amended): before any handshake the session dispatches frames
by opcode exactly as it does afterwards — a Close frame sets the `closed`
flag, a Ping is answered with a Pong even though no handshake has been
processed, and Frame/Pong opcodes are published onto the outbound bus
(which no host has joined yet) with the session left open. -/
theorem awaitingHandshake_dispatch (conn : List Bool)
    (lk : Except ReqError ApplicationRpcData) (d : Data)
    (h : d.opcode ≠ OpCode.handshake) :
    Client.handle conn lk initState d =
      .ok { initState with
              closed := if d.opcode = OpCode.close then true else false
            , switchEvents := if d.opcode = OpCode.ping then [⟨OpCode.pong, pongMsg⟩] else []
            , busEvents :=
                if d.opcode = OpCode.frame ∨ d.opcode = OpCode.pong then [d] else [] } := by
  obtain ⟨op, msg⟩ := d
  cases op with
  | handshake => exact absurd rfl h
  | ping => rfl
  | close => rfl
  | frame => rfl
  | pong => rfl

/-- Witness for the amended C3 at a Frame-opcode frame. -/
theorem awaitingHandshake_dispatch_witness :
    (⟨OpCode.frame, [65]⟩ : Data).opcode ≠ OpCode.handshake ∧
    Client.handle [] (.error .requestFailed) initState ⟨OpCode.frame, [65]⟩ =
      .ok { initState with
              closed :=
                if (⟨OpCode.frame, [65]⟩ : Data).opcode = OpCode.close then true else false
            , switchEvents :=
                if (⟨OpCode.frame, [65]⟩ : Data).opcode = OpCode.ping then
                  [⟨OpCode.pong, pongMsg⟩]
                else []
            , busEvents :=
                if (⟨OpCode.frame, [65]⟩ : Data).opcode = OpCode.frame ∨
                    (⟨OpCode.frame, [65]⟩ : Data).opcode = OpCode.pong then
                  [⟨OpCode.frame, [65]⟩]
                else [] } :=
  ⟨by decide,
    awaitingHandshake_dispatch [] (.error .requestFailed) ⟨OpCode.frame, [65]⟩ (by decide)⟩

/-- Claim C2, evaluated at the failing input: on the well-formed frame
`opcode=Frame, length=0` followed by end of stream, the source reader's
single `read_buf` returns zero bytes and the loop breaks — the frame is
treated as a disconnect — whereas the spec's read-exactly-`length` decoder
returns the empty-payload frame. -/
theorem zeroLengthFrame_read :
    readFrame [1, 0, 0, 0, 0, 0, 0, 0] = ReadResult.disconnected ∧
    specReadFrame [1, 0, 0, 0, 0, 0, 0, 0] = ReadResult.frame ⟨OpCode.frame, []⟩ [] :=
  ⟨rfl, rfl⟩

/-- Counterexample to claim C6: the frame with opcode Frame and empty
payload does not survive the round trip — decoding its encoding is treated
as end of stream, not as the frame itself. -/
theorem roundtrip_empty_cex :
    readFrame (Data.to_buf ⟨OpCode.frame, []⟩) = ReadResult.disconnected ∧
    ReadResult.disconnected ≠ ReadResult.frame ⟨OpCode.frame, []⟩ [] :=
  ⟨rfl, by decide⟩

/-- Claim C6 (amended): for every frame with a valid opcode, a valid-UTF-8
payload of at least one byte, and byte length below `2^32`, decoding the
encoded bytes yields exactly the original frame with nothing left over. -/
theorem roundtrip (d : Data) (h1 : utf8Valid d.msg = true) (h2 : d.msg ≠ [])
    (h3 : d.msg.length < 4294967296) :
    readFrame d.to_buf = ReadResult.frame d [] := by
  obtain ⟨op, msg⟩ := d
  have hm : msg.length % 4294967296 = msg.length := Nat.mod_eq_of_lt h3
  have hop : op.toU32 % 4294967296 = op.toU32 := Nat.mod_eq_of_lt (toU32_lt op)
  have hlen : msg.length ≠ 0 := by
    cases msg with
    | nil => exact absurd rfl h2
    | cons a l => simp
  rw [readFrame, Data.to_buf, List.append_assoc, readU32_putU32le, hop]
  simp only [from_u32_toU32]
  rw [readU32_putU32le]
  simp only [Data.len]
  rw [hm, hm]
  simp only [if_neg hlen, min_self, inf_idem, List.take_length, List.drop_length, h1, if_true]

/-- Witness for the amended C6 at the frame `(Frame, "hi")`. -/
theorem roundtrip_witness :
    utf8Valid [104, 105] = true ∧ ([104, 105] : List Nat) ≠ [] ∧
    ([104, 105] : List Nat).length < 4294967296 ∧
    readFrame (Data.to_buf ⟨OpCode.frame, [104, 105]⟩) =
      ReadResult.frame ⟨OpCode.frame, [104, 105]⟩ [] :=
  ⟨by decide, by decide, by decide,
    roundtrip ⟨OpCode.frame, [104, 105]⟩ (by decide) (by decide) (by decide)⟩

/-- When every slot from `i` up is taken, the scan from `i` fails with
`NoNameAvailable`. -/
theorem nextNameFrom_all_taken (taken : Nat → Bool) :
    ∀ n i, 10 - i ≤ n → (∀ k, i ≤ k → k < 10 → taken k = true) →
      nextNameFrom taken i = .error .noNameAvailable := by
  intro n
  induction n with
  | zero =>
      intro i hi _
      rw [nextNameFrom, if_neg (by omega)]
  | succ n ih =>
      intro i hi hk
      rw [nextNameFrom]
      by_cases h10 : i < 10
      · rw [if_pos h10, if_pos (hk i le_rfl h10)]
        exact ih (i + 1) (by omega) fun k h1 h2 => hk k (by omega) h2
      · rw [if_neg h10]

/-- When the scan from `i` fails, every slot from `i` up is taken. -/
theorem nextNameFrom_error_all (taken : Nat → Bool) :
    ∀ n i, 10 - i ≤ n → nextNameFrom taken i = .error .noNameAvailable →
      ∀ k, i ≤ k → k < 10 → taken k = true := by
  intro n
  induction n with
  | zero =>
      intro i hi _ k h1 h2
      omega
  | succ n ih =>
      intro i hi he k h1 h2
      rw [nextNameFrom] at he
      by_cases h10 : i < 10
      · rw [if_pos h10] at he
        by_cases ht : taken i = true
        · rw [if_pos ht] at he
          rcases Nat.eq_or_lt_of_le h1 with rfl | hik
          · exact ht
          · exact ih (i + 1) (by omega) he k hik h2
        · rw [if_neg ht] at he
          exact absurd he (by simp)
      · omega

/-- The scan from `i` returns `ipcName j` when `j` is the first untaken
slot at or after `i`. -/
theorem nextNameFrom_first_free (taken : Nat → Bool) :
    ∀ n i j, 10 - i ≤ n → i ≤ j → j < 10 → taken j = false →
      (∀ k, i ≤ k → k < j → taken k = true) →
      nextNameFrom taken i = .ok (ipcName j) := by
  intro n
  induction n with
  | zero =>
      intro i j hi hij hj _ _
      omega
  | succ n ih =>
      intro i j hi hij hj htj hk
      rw [nextNameFrom, if_pos (by omega)]
      rcases Nat.eq_or_lt_of_le hij with rfl | hlt
      · rw [if_neg (by simp [htj])]
      · rw [if_pos (hk i le_rfl hlt)]
        exact ih (i + 1) j (by omega) (by omega) hj htj fun k h1 h2 => hk k (by omega) h2

/-- Claim C7: when exactly the slots in `S` exist (`taken` being the
point-in-time existence probe), `next_name` fails with `NoNameAvailable`
precisely when all ten slots are taken, and returns `discord-ipc-j` for the
smallest untaken index `j` otherwise. -/
theorem next_name_spec (taken : Nat → Bool) :
    (next_name taken = .error IpcError.noNameAvailable ↔ ∀ i, i < 10 → taken i = true) ∧
    (∀ j, j < 10 → taken j = false → (∀ k, k < j → taken k = true) →
      next_name taken = .ok (ipcName j)) := by
  refine ⟨⟨?_, ?_⟩, ?_⟩
  · intro h i hi
    exact nextNameFrom_error_all taken 10 0 (by omega) h i (Nat.zero_le i) hi
  · intro h
    exact nextNameFrom_all_taken taken 10 0 (by omega) fun k _ hk => h k hk
  · intro j hj htj hk
    exact nextNameFrom_first_free taken 10 0 j (by omega) (Nat.zero_le j) hj htj
      fun k _ h2 => hk k h2

/-- Witness for C7: with slots 0, 1, 2 taken, the allocator returns
`discord-ipc-3`. -/
theorem next_name_spec_witness :
    (fun i => decide (i < 3)) 3 = false ∧
    next_name (fun i => decide (i < 3)) = .ok (ipcName 3) :=
  ⟨by decide, (next_name_spec fun i => decide (i < 3)).2 3 (by decide) (by decide)
    (fun k hk => by simp only [decide_eq_true_eq]; omega)⟩

/-- Claim C9: the application lookup returns a cached entry at once without
issuing the HTTP request and without touching the cache; on a cache miss a
successful fetch is returned and inserted, and a failed fetch is returned
as the error with the cache left unchanged. -/
theorem application_rpc_spec (cache : List (String × ApplicationRpcData))
    (fetch : Except ReqError ApplicationRpcData) (clientId : String) :
    (∀ d, cacheGet cache clientId = some d →
        application_rpc cache fetch clientId = (.ok d, cache, false)) ∧
    (cacheGet cache clientId = none →
        (∀ d, fetch = .ok d →
            application_rpc cache fetch clientId = (.ok d, (clientId, d) :: cache, true)) ∧
        (∀ e, fetch = .error e →
            application_rpc cache fetch clientId = (.error e, cache, true))) := by
  refine ⟨?_, ?_⟩
  · intro d h
    simp [application_rpc, h]
  · intro h
    refine ⟨?_, ?_⟩ <;> intro x hx <;> simp [application_rpc, h, hx]

/-- Witness for C9 on a one-entry cache hit. -/
theorem application_rpc_spec_witness :
    cacheGet [("1", ApplicationRpcData.mk "A")] "1" = some (ApplicationRpcData.mk "A") ∧
    application_rpc [("1", ApplicationRpcData.mk "A")] (.error .requestFailed) "1" =
      (.ok (ApplicationRpcData.mk "A"), [("1", ApplicationRpcData.mk "A")], false) :=
  ⟨by decide,
    (application_rpc_spec [("1", ApplicationRpcData.mk "A")] (.error .requestFailed) "1").1
      (ApplicationRpcData.mk "A") (by decide)⟩

/-- With at least one successful connector, no dispatch step can fail with
`NoDiscords`. -/
theorem handle_ne_noDiscords (conn : List Bool) (lk : Except ReqError ApplicationRpcData)
    (st : SessionState) (d : Data) (hc : conn.count true ≠ 0) :
    Client.handle conn lk st d ≠ .error SessionError.noDiscords := by
  obtain ⟨op, msg⟩ := d
  cases op <;>
    simp only [Client.handle, Client.handshakeStep] <;>
    try simp
  cases hp : parseHandshake msg with
  | none => simp
  | some j => simp [Client.setup_discord_ipc_clients, hc]

/-- With at least one successful connector, no run of the session ends with
`NoDiscords`. -/
theorem run_ne_noDiscords (conn : List Bool) (lk : Except ReqError ApplicationRpcData)
    (hc : conn.count true ≠ 0) :
    ∀ ds st, (runSession conn lk st ds).2 ≠ some SessionError.noDiscords := by
  intro ds
  induction ds with
  | nil =>
      intro st
      simp [runSession]
  | cons d ds ih =>
      intro st
      rw [runSession]
      by_cases hcl : st.closed
      · simp [hcl]
      · rw [if_neg hcl]
        cases hh : Client.handle conn lk st d with
        | ok st1 => exact ih st1
        | error e =>
            have hne := handle_ne_noDiscords conn lk st d hc
            rw [hh] at hne
            simp only
            intro hcontra
            apply hne
            simp only [Option.some.injEq] at hcontra
            rw [hcontra]

/-- Claim C5: a session whose first frame is a parseable handshake fails
with `NoDiscords` — stopping before anything reaches the outbound bus —
exactly when zero host connectors succeed, and with at least one success no
`NoDiscords` error is ever returned. -/
theorem noDiscords_spec (conn : List Bool) (lk : Except ReqError ApplicationRpcData)
    (p : List Nat) (j : Json) (ds : List Data) (hp : parseHandshake p = some j) :
    (conn.count true = 0 →
        runSession conn lk initState (⟨OpCode.handshake, p⟩ :: ds) =
          (initState, some SessionError.noDiscords)) ∧
    (conn.count true ≠ 0 →
        (runSession conn lk initState (⟨OpCode.handshake, p⟩ :: ds)).2 ≠
          some SessionError.noDiscords) := by
  constructor
  · intro hc
    rw [runSession, if_neg (by simp [initState])]
    simp [Client.handle, Client.handshakeStep, hp, Client.setup_discord_ipc_clients, hc]
  · intro hc
    rw [runSession, if_neg (by simp [initState])]
    cases hh : Client.handle conn lk initState ⟨OpCode.handshake, p⟩ with
    | ok st1 => exact run_ne_noDiscords conn lk hc ds st1
    | error e =>
        have hne := handle_ne_noDiscords conn lk initState ⟨OpCode.handshake, p⟩ hc
        rw [hh] at hne
        simp only
        intro hcontra
        apply hne
        simp only [Option.some.injEq] at hcontra
        rw [hcontra]

/-- Witness for C5 with one successful connector and the handshake payload
`(123,34,...)`, the bytes of a compact `client_id` object. -/
theorem noDiscords_spec_witness :
    parseHandshake [123, 34, 99, 108, 105, 101, 110, 116, 95, 105, 100, 34, 58, 34, 49, 34, 125] =
      some (Json.obj (JsonFields.cons clientIdKey (Json.str [49]) JsonFields.nil)) ∧
    (runSession [true] (.error .requestFailed) initState
        [⟨OpCode.handshake,
          [123, 34, 99, 108, 105, 101, 110, 116, 95, 105, 100, 34, 58, 34, 49, 34, 125]⟩]).2 ≠
      some SessionError.noDiscords :=
  ⟨rfl,
    (noDiscords_spec [true] (.error .requestFailed)
        [123, 34, 99, 108, 105, 101, 110, 116, 95, 105, 100, 34, 58, 34, 49, 34, 125]
        (Json.obj (JsonFields.cons clientIdKey (Json.str [49]) JsonFields.nil)) [] rfl).2
      (by decide)⟩

/-- Dispatching a non-handshake frame succeeds and appends only
non-handshake events to the outbound bus. -/
theorem handle_nonhandshake (conn : List Bool) (lk : Except ReqError ApplicationRpcData)
    (st : SessionState) (d : Data) (h : d.opcode ≠ OpCode.handshake) :
    ∃ st1 e0, Client.handle conn lk st d = .ok st1 ∧
      st1.busEvents = st.busEvents ++ e0 ∧
      ∀ x ∈ e0, x.opcode ≠ OpCode.handshake := by
  obtain ⟨op, msg⟩ := d
  cases op with
  | handshake => exact absurd rfl h
  | ping => exact ⟨_, [], rfl, by simp [Client.pingStep], by simp⟩
  | close => exact ⟨_, [], rfl, by simp [Client.closeStep], by simp⟩
  | frame =>
      exact ⟨_, [⟨OpCode.frame, msg⟩], rfl, by simp [Client.relayStep],
        by intro x hx; simp at hx; simp [hx]⟩
  | pong =>
      exact ⟨_, [⟨OpCode.pong, msg⟩], rfl, by simp [Client.relayStep],
        by intro x hx; simp at hx; simp [hx]⟩

/-- Running a sequence of non-handshake frames only appends non-handshake
events to the outbound bus. -/
theorem run_nonhandshake_bus (conn : List Bool) (lk : Except ReqError ApplicationRpcData) :
    ∀ ds st, (∀ f ∈ ds, f.opcode ≠ OpCode.handshake) →
      ∃ tail, (runSession conn lk st ds).1.busEvents = st.busEvents ++ tail ∧
        ∀ x ∈ tail, x.opcode ≠ OpCode.handshake := by
  intro ds
  induction ds with
  | nil =>
      intro st _
      exact ⟨[], by simp [runSession], by simp⟩
  | cons d ds ih =>
      intro st hds
      rw [runSession]
      by_cases hcl : st.closed
      · rw [if_pos hcl]
        exact ⟨[], by simp, by simp⟩
      · rw [if_neg hcl]
        obtain ⟨st1, e0, hh, hb, he⟩ :=
          handle_nonhandshake conn lk st d (hds d (by simp))
        rw [hh]
        obtain ⟨tail, ht, hte⟩ := ih st1 fun f hf => hds f (by simp [hf])
        refine ⟨e0 ++ tail, by rw [ht, hb, List.append_assoc], ?_⟩
        intro x hx
        rcases List.mem_append.mp hx with h1 | h2
        · exact he x h1
        · exact hte x h2

/-- Claim C1 (amended): in a session whose first frame is a Handshake with
a parseable payload, whose host setup has at least one successful
connector, and whose later frames carry no Handshake opcode, the first
frame sent on the outbound bus carries opcode Handshake and the
re-serialization of the parsed handshake, and it is the only
Handshake-opcode frame the bus ever carries — so it precedes every
non-handshake broadcast. -/
theorem handshake_replay (conn : List Bool) (lk : Except ReqError ApplicationRpcData)
    (p : List Nat) (j : Json) (ds : List Data)
    (hc : conn.count true ≠ 0) (hp : parseHandshake p = some j)
    (hds : ∀ f ∈ ds, f.opcode ≠ OpCode.handshake) :
    (runSession conn lk initState (⟨OpCode.handshake, p⟩ :: ds)).1.busEvents.head? =
        some ⟨OpCode.handshake, printJson j⟩ ∧
    ((runSession conn lk initState (⟨OpCode.handshake, p⟩ :: ds)).1.busEvents.countP
        fun e => e.opcode == OpCode.handshake) = 1 := by
  have hstep : Client.handle conn lk initState ⟨OpCode.handshake, p⟩ =
      .ok { handshake := some j
          , app_data := lk.toOption
          , discord_ipc_clients := conn.count true
          , closed := false
          , busEvents := [⟨OpCode.handshake, printJson j⟩]
          , switchEvents := [] } := by
    simp [Client.handle, Client.handshakeStep, hp, Client.setup_discord_ipc_clients, hc,
      initState]
  rw [runSession, if_neg (by simp [initState]), hstep]
  obtain ⟨tail, ht, hte⟩ := run_nonhandshake_bus conn lk ds _ hds
  rw [ht]
  simp only [List.cons_append, List.nil_append, List.head?_cons, List.countP_cons,
    true_and]
  have h0 : tail.countP (fun e => e.opcode == OpCode.handshake) = 0 :=
    List.countP_eq_zero.mpr fun x hx => by
      simp only [beq_iff_eq]
      exact hte x hx
  simp [h0]

/-- Witness for the amended C1: one successful connector, the compact
handshake payload, and one later Frame-opcode frame. -/
theorem handshake_replay_witness :
    (([true] : List Bool).count true ≠ 0) ∧
    parseHandshake [123, 34, 99, 108, 105, 101, 110, 116, 95, 105, 100, 34, 58, 34, 49, 34, 125] =
      some (Json.obj (JsonFields.cons clientIdKey (Json.str [49]) JsonFields.nil)) ∧
    (∀ f ∈ [(⟨OpCode.frame, [65]⟩ : Data)], f.opcode ≠ OpCode.handshake) ∧
    (runSession [true] (.error .requestFailed) initState
        (⟨OpCode.handshake,
          [123, 34, 99, 108, 105, 101, 110, 116, 95, 105, 100, 34, 58, 34, 49, 34, 125]⟩ ::
          [⟨OpCode.frame, [65]⟩])).1.busEvents.head? =
      some ⟨OpCode.handshake,
        printJson (Json.obj (JsonFields.cons clientIdKey (Json.str [49]) JsonFields.nil))⟩ ∧
    ((runSession [true] (.error .requestFailed) initState
        (⟨OpCode.handshake,
          [123, 34, 99, 108, 105, 101, 110, 116, 95, 105, 100, 34, 58, 34, 49, 34, 125]⟩ ::
          [⟨OpCode.frame, [65]⟩])).1.busEvents.countP
        fun e => e.opcode == OpCode.handshake) = 1 :=
  ⟨by decide, rfl, by decide,
    (handshake_replay [true] (.error .requestFailed)
        [123, 34, 99, 108, 105, 101, 110, 116, 95, 105, 100, 34, 58, 34, 49, 34, 125]
        (Json.obj (JsonFields.cons clientIdKey (Json.str [49]) JsonFields.nil))
        [⟨OpCode.frame, [65]⟩] (by decide) rfl (by decide)).1,
    (handshake_replay [true] (.error .requestFailed)
        [123, 34, 99, 108, 105, 101, 110, 116, 95, 105, 100, 34, 58, 34, 49, 34, 125]
        (Json.obj (JsonFields.cons clientIdKey (Json.str [49]) JsonFields.nil))
        [⟨OpCode.frame, [65]⟩] (by decide) rfl (by decide)).2⟩

/-- Counterexample to claim C1: a session whose first frame is a Handshake
with the spaced payload bytes of the JSON text with a space after the
colon, and one successful connector, puts exactly one frame on the outbound
bus — whose payload is the compact re-serialization of the parsed
handshake, not the client's original bytes.  The exact original bytes are
never sent. -/
theorem handshake_replay_cex :
    (runSession [true] (.error .requestFailed) initState
        [⟨OpCode.handshake,
          [123, 34, 99, 108, 105, 101, 110, 116, 95, 105, 100, 34, 58, 32, 34, 49, 34,
            125]⟩]).1.busEvents.map Data.msg =
      [[123, 34, 99, 108, 105, 101, 110, 116, 95, 105, 100, 34, 58, 34, 49, 34, 125]] ∧
    ([123, 34, 99, 108, 105, 101, 110, 116, 95, 105, 100, 34, 58, 34, 49, 34, 125] : List Nat) ≠
      [123, 34, 99, 108, 105, 101, 110, 116, 95, 105, 100, 34, 58, 32, 34, 49, 34, 125] :=
  ⟨by decide, by decide⟩

end PresenceSwitch
